import Mathlib

/-!
Verification development for the Talma tea-factory tracker (`app.py`).

The Python source is shallowly embedded: each Flask route's database
effect becomes a pure Lean function on lists of rows, numeric form
values are rationals (`ℚ`), ISO-8601 date strings are modelled as
`Date` triples (year, month, day) — for valid dates, string order and
`substr(date,1,7)` month matching coincide with the calendar order and
month projection used here — and SQLite's dynamically typed storage of
bound parameters is modelled by `SqlVal`.
-/

namespace Talma

/-- A value bound into an SQLite column: the driver stores Python
floats/ints as numbers, strings as text, and `None` as NULL.
(No column affinity is modelled: the schema is not part of the source;
what the app binds is what we record.) -/
inductive SqlVal where
  | num (q : ℚ)
  | text (s : String)
  | null
deriving DecidableEq

/-! ### Model of the Python `float` builtin on decimal literals

`float(s)` accepts an optional sign followed by a decimal literal.
The model below covers plain decimal literals (optional `+`/`-` sign,
digits, optional fractional part); the builtin also accepts exponent
notation and `inf`/`nan`, which this development never feeds to it.
A string outside the grammar makes the builtin raise `ValueError`,
modelled as `none`. -/

def digitsToNat (l : List Char) : ℕ :=
  l.foldl (fun a c => 10 * a + (c.toNat - 48)) 0

def allDigits (l : List Char) : Bool :=
  l.all (fun c => c.isDigit)

def pyFloat (s : String) : Option ℚ :=
  let cs := s.toList
  let body : ℚ × List Char :=
    match cs with
    | '-' :: t => (-1, t)
    | '+' :: t => (1, t)
    | _        => (1, cs)
  let ip := body.2.takeWhile (fun c => c ≠ '.')
  let rest := body.2.dropWhile (fun c => c ≠ '.')
  let fp : Option (List Char) :=
    match rest with
    | [] => some []
    | _ :: t => if t.contains '.' then none else some t
  match fp with
  | none => none
  | some f =>
      if allDigits ip ∧ allDigits f ∧ (ip ≠ [] ∨ f ≠ []) then
        some (body.1 * ((digitsToNat ip : ℚ) + (digitsToNat f : ℚ) / (10 : ℚ) ^ f.length))
      else none

/-- Embedding of the helper `_f` (app.py lines 36–38):
`try: return float(v or 0) / except: return 0.0`.
A missing field (`None`) or empty string is falsy, so `float(0)` gives 0;
otherwise the builtin parses the string and any exception yields `0.0`.
The function is total: coercion never raises. -/
def coerce_f (v : Option String) : ℚ :=
  match v with
  | none => 0
  | some s => if s = "" then 0 else (pyFloat s).getD 0

/-! ### Calendar arithmetic (proleptic Gregorian)

The source manipulates ISO date strings through `datetime`,
`calendar.monthrange` and SQLite's `strftime` date modifiers.  We model
a date string as its (year, month, day) triple and give it the rata-die
day number; `rataDie ⟨1,1,1⟩ = 0`, and day numbers taken mod 7 give the
weekday with Monday = 0 (so Saturday = 5), matching Python's
`datetime.weekday()`. -/

structure Date where
  year : ℕ
  month : ℕ
  day : ℕ
deriving DecidableEq

def isLeap (y : ℕ) : Prop :=
  (y % 4 = 0 ∧ y % 100 ≠ 0) ∨ y % 400 = 0

instance (y : ℕ) : Decidable (isLeap y) := by
  unfold isLeap; infer_instance

/-- Cumulative day counts before month `m` in a non-leap year
(months 1–12; argument 13 gives the year length 365). -/
def cumDays : ℕ → ℕ
  | 1 => 0 | 2 => 31 | 3 => 59 | 4 => 90 | 5 => 120 | 6 => 151
  | 7 => 181 | 8 => 212 | 9 => 243 | 10 => 273 | 11 => 304 | 12 => 334
  | _ => 365

def leapAdj (y m : ℕ) : ℕ :=
  if isLeap y ∧ 2 < m then 1 else 0

/-- `calendar.monthrange(y, m)[1]`: the number of days in the month. -/
def daysInMonth (y m : ℕ) : ℕ :=
  cumDays (m + 1) - cumDays m + (if isLeap y ∧ m = 2 then 1 else 0)

def daysBeforeYear (y : ℕ) : ℕ :=
  365 * (y - 1) + (y - 1) / 4 - (y - 1) / 100 + (y - 1) / 400

/-- Days elapsed since 0001-01-01 (proleptic Gregorian). -/
def rataDie (d : Date) : ℕ :=
  daysBeforeYear d.year + cumDays d.month + leapAdj d.year d.month + (d.day - 1)

def Date.valid (d : Date) : Prop :=
  1 ≤ d.year ∧ 1 ≤ d.month ∧ d.month ≤ 12 ∧ 1 ≤ d.day ∧ d.day ≤ daysInMonth d.year d.month

instance (d : Date) : Decidable d.valid := by
  unfold Date.valid; infer_instance

/-- `datetime + timedelta(days=1)`: the next calendar day. -/
def nextDay (d : Date) : Date :=
  if d.day < daysInMonth d.year d.month then ⟨d.year, d.month, d.day + 1⟩
  else if d.month < 12 then ⟨d.year, d.month + 1, 1⟩
  else ⟨d.year + 1, 1, 1⟩

def addDays (d : Date) : ℕ → Date
  | 0 => d
  | k + 1 => addDays (nextDay d) k

/-- Saturday has weekday residue 5 (Monday = 0). -/
def isSaturday (d : Date) : Prop := rataDie d % 7 = 5

instance (d : Date) : Decidable (isSaturday d) := by
  unfold isSaturday; infer_instance

/-- The Saturday on-or-after `d`.  This is both the Python helper
`get_week_start` (`(5 - weekday) % 7` days forward, Monday = 0) and
SQLite's `strftime(date, 'weekday 6')` modifier, which advances the
date forward, if necessary, to the next Saturday. -/
def nextSaturday (d : Date) : Date :=
  addDays d ((5 + 7 - rataDie d % 7) % 7)

/-- Python's `x or default` for an optional form string: `None` and the
empty string are falsy. -/
def pyOr (v : Option String) (dflt : String) : String :=
  match v with
  | none => dflt
  | some s => if s = "" then dflt else s

/-- How the sqlite3 driver binds a `request.form.get(...)` result:
a string is bound as text, `None` as NULL. -/
def bindVal (v : Option String) : SqlVal :=
  match v with
  | none => SqlVal.null
  | some s => SqlVal.text s

/-! ### Data model: rows of the five tables (app.py schema usage) -/

/-- One row of `daily_cash`.  Autoincremented row ids are assigned by
the store; rows built by the create path carry `id = 0` until inserted. -/
structure CashEntry where
  id : ℕ
  date : Date
  total_kg : ℚ
  amount_tk : ℚ
  green_leaf_bill_payment : ℚ
  staff_salary : ℚ
  labour_bill : ℚ
  production_cost : ℚ
  coal : ℚ
  diesel : ℚ
  electricity : ℚ
  other_exp : ℚ
  total_cost : ℚ
  capital_cost : ℚ
  machineries : ℚ
  assets_purchase : ℚ
  construction : ℚ
  fixed_cost : ℚ
  grand_total : ℚ
  cash_receive : ℚ
  add_amount : ℚ
  less_amount : ℚ
  net_cash : ℚ
  note : String
  voucher_path : Option String
  status : String
  created_by : ℕ
  approved_by : Option ℕ
  approved_at : Option String
deriving DecidableEq

/-- One row of `workers`.  `hourly_rate` holds whatever the app binds
for it — the raw form string at creation and update (no numeric
coercion in the source) — while `approved_hourly_rate` is bound as the
number 0 at creation. -/
structure Worker where
  id : ℕ
  name : String
  join_date : String
  note : String
  active : ℕ
  hourly_rate : SqlVal
  approved_hourly_rate : SqlVal
  leave_date : Option String
deriving DecidableEq

/-- One row of `timesheets`. -/
structure TimesheetEntry where
  id : ℕ
  date : Date
  worker_id : ℕ
  hours : ℚ
  note : String
  status : String
  created_by : ℕ
  approved_by : Option ℕ
  approved_at : Option String
deriving DecidableEq

/-- One row of `users`. -/
structure UserRow where
  id : ℕ
  username : String
  password : String
  role : String
deriving DecidableEq

/-! ### Daily cash capture (`daily`, POST branch, app.py 96–166) -/

/-- The POST form of the `/daily` route: every `request.form.get(name)`
is an optional string. -/
structure DailyForm where
  date : Option Date
  total_kg : Option String
  amount_tk : Option String
  green_leaf_bill_payment : Option String
  staff_salary : Option String
  labour_bill : Option String
  production_cost : Option String
  coal : Option String
  diesel : Option String
  electricity : Option String
  other_exp : Option String
  capital_cost : Option String
  machineries : Option String
  assets_purchase : Option String
  construction : Option String
  cash_receive : Option String
  add_amount : Option String
  less_amount : Option String
  note : Option String
  voucher : Option String

/-- The row the POST branch of `daily` inserts: numeric fields coerced
through `_f`, the four derived totals recomputed, `status='submitted'`.
The voucher filename (produced by the file-storage collaborator) is
passed through untouched. -/
def daily_post (form : DailyForm) (today : Date) (uid : ℕ) : CashEntry :=
  let gl_pay := coerce_f form.green_leaf_bill_payment
  let staff_salary := coerce_f form.staff_salary
  let labour_bill := coerce_f form.labour_bill
  let production_cost := coerce_f form.production_cost
  let coal := coerce_f form.coal
  let diesel := coerce_f form.diesel
  let electricity := coerce_f form.electricity
  let other_exp := coerce_f form.other_exp
  let capital_cost := coerce_f form.capital_cost
  let machineries := coerce_f form.machineries
  let assets_purchase := coerce_f form.assets_purchase
  let construction := coerce_f form.construction
  let cash_receive := coerce_f form.cash_receive
  let add_amount := coerce_f form.add_amount
  let less_amount := coerce_f form.less_amount
  let total_cost := gl_pay + staff_salary + labour_bill + production_cost
      + coal + diesel + electricity + other_exp
  let fixed_cost := capital_cost + machineries + assets_purchase + construction
  { id := 0
    date := form.date.getD today
    total_kg := coerce_f form.total_kg
    amount_tk := coerce_f form.amount_tk
    green_leaf_bill_payment := gl_pay
    staff_salary := staff_salary
    labour_bill := labour_bill
    production_cost := production_cost
    coal := coal
    diesel := diesel
    electricity := electricity
    other_exp := other_exp
    total_cost := total_cost
    capital_cost := capital_cost
    machineries := machineries
    assets_purchase := assets_purchase
    construction := construction
    fixed_cost := fixed_cost
    grand_total := total_cost + fixed_cost
    cash_receive := cash_receive
    add_amount := add_amount
    less_amount := less_amount
    net_cash := cash_receive + add_amount - less_amount
    note := (form.note.getD "").trim
    voucher_path := form.voucher
    status := "submitted"
    created_by := uid
    approved_by := none
    approved_at := none }

/-! ### Approval state machine (approve / unapprove / reset routes) -/

/-- `roles_required(*roles)`: the request proceeds only when the
current user's role is in the allowed list. -/
def rolesOk (roles : List String) (role : String) : Bool :=
  roles.contains role

/-- `/daily/approve/<id>`: `UPDATE daily_cash SET status='approved',
approved_by=?, approved_at=? WHERE id=?`, gated by
`roles_required('admin','md')`. -/
def approve_daily (role : String) (approver : ℕ) (now : String) (rid : ℕ)
    (tbl : List CashEntry) : List CashEntry :=
  if rolesOk ["admin", "md"] role then
    tbl.map (fun e =>
      if e.id = rid then
        { e with status := "approved", approved_by := some approver, approved_at := some now }
      else e)
  else tbl

/-- `/daily/unapprove/<id>`: `UPDATE daily_cash SET status='submitted',
approved_by=NULL, approved_at=NULL WHERE id=?`. -/
def unapprove_daily (role : String) (rid : ℕ) (tbl : List CashEntry) : List CashEntry :=
  if rolesOk ["admin", "md"] role then
    tbl.map (fun e =>
      if e.id = rid then
        { e with status := "submitted", approved_by := none, approved_at := none }
      else e)
  else tbl

/-- `/timesheets/approve/<id>`, gated by `roles_required('md','admin')`. -/
def approve_timesheet (role : String) (approver : ℕ) (now : String) (tid : ℕ)
    (tbl : List TimesheetEntry) : List TimesheetEntry :=
  if rolesOk ["md", "admin"] role then
    tbl.map (fun e =>
      if e.id = tid then
        { e with status := "approved", approved_by := some approver, approved_at := some now }
      else e)
  else tbl

/-- `/timesheets/reset/<id>`: `UPDATE timesheets SET status='pending',
approved_by=NULL, approved_at=NULL WHERE id=?`. -/
def reset_timesheet (role : String) (tid : ℕ) (tbl : List TimesheetEntry) : List TimesheetEntry :=
  if rolesOk ["md", "admin"] role then
    tbl.map (fun e =>
      if e.id = tid then
        { e with status := "pending", approved_by := none, approved_at := none }
      else e)
  else tbl

/-! ### People roster (`people` POST, `update_hourly_rate`) -/

/-- Worker creation (`people` POST, kind == "worker"): the insert binds
`active=1`, `approved_hourly_rate=0`, and the raw
`request.form.get("hourly_rate", "0")` string for `hourly_rate`. -/
def add_worker (name : String) (join_date : Option String) (note : Option String)
    (hourly_rate : Option String) (today : String) : Worker :=
  { id := 0
    name := name
    join_date := pyOr join_date today
    note := note.getD ""
    active := 1
    hourly_rate := SqlVal.text (hourly_rate.getD "0")
    approved_hourly_rate := SqlVal.num 0
    leave_date := none }

/-- `/people/update_hourly_rate/<id>`: gated by
`roles_required('md','admin')`; the body re-checks the same role set
and then runs `UPDATE workers SET hourly_rate = ?,
approved_hourly_rate = 0 WHERE id = ?` with the raw form string
`new_rate` — no numeric coercion. -/
def update_hourly_rate (role : String) (new_rate : Option String) (wid : ℕ)
    (tbl : List Worker) : List Worker :=
  if rolesOk ["md", "admin"] role then
    if role = "md" ∨ role = "admin" then
      tbl.map (fun w =>
        if w.id = wid then
          { w with hourly_rate := bindVal new_rate, approved_hourly_rate := SqlVal.num 0 }
        else w)
    else tbl
  else tbl

/-! ### Timesheet capture (`timesheets_page` POST, app.py 404–416) -/

/-- The POST branch of `/timesheets`: for each active worker, coerce
`hours_<id>` through `_f` and insert a `'pending'` row when positive;
zero or blank hours produce no row. -/
def timesheets_post (the_day : Date) (uid : ℕ)
    (hoursField noteField : ℕ → Option String)
    (workersTbl : List Worker) : List TimesheetEntry :=
  (workersTbl.filter (fun w => w.active == 1)).filterMap (fun w =>
    let h := coerce_f (hoursField w.id)
    if 0 < h then
      some { id := 0, date := the_day, worker_id := w.id, hours := h
             note := (noteField w.id).getD "", status := "pending"
             created_by := uid, approved_by := none, approved_at := none }
    else none)

/-! ### User deletion (`delete_user`, app.py 543–557) -/

/-- `/users/delete/<uid>`: the route is gated by
`roles_required('md','admin')`; the body re-checks `manager` (dead past
the gate), fetches the target's role, lets MD delete only managers, and
otherwise deletes the row.  The result pairs the table with the flash
message shown to the caller (`""` for the silent not-found redirect);
no branch raises. -/
def delete_user (role : String) (uid : ℕ) (users : List UserRow) :
    List UserRow × String :=
  if rolesOk ["md", "admin"] role then
    if role = "manager" then (users, "Not allowed.")
    else
      match users.find? (fun u => u.id == uid) with
      | none => (users, "")
      | some target =>
          if role = "md" ∧ target.role ≠ "manager" then
            (users, "MD can only delete managers.")
          else (users.filter (fun u => u.id != uid), "Deleted.")
  else (users, "Not allowed.")

/-! ### Monthly sums and range summary (`daily` GET, `summary`) -/

/-- SQL `SUM(col)`: NULL over zero rows, the sum otherwise. -/
def sqlSum (l : List ℚ) : Option ℚ :=
  match l with
  | [] => none
  | _ => some l.sum

/-- SQL `COALESCE(x, 0)`. -/
def coalesce0 (v : Option ℚ) : ℚ := v.getD 0

/-- `WHERE substr(date,1,7) = 'YYYY-MM'` on a valid ISO date. -/
def inMonth (y m : ℕ) (d : Date) : Bool :=
  d.year == y && d.month == m

/-- `WHERE date BETWEEN start AND end` (string order = calendar order
on valid ISO dates). -/
def inRange (s e d : Date) : Bool :=
  decide (rataDie s ≤ rataDie d) && decide (rataDie d ≤ rataDie e)

/-- The result row of the monthly totals query in the GET branch of
`daily` (app.py 176–201): one `COALESCE(SUM(col),0)` per column. -/
structure MonthTotals where
  total_kg : ℚ
  amount_tk : ℚ
  green_leaf_bill_payment : ℚ
  staff_salary : ℚ
  labour_bill : ℚ
  production_cost : ℚ
  coal : ℚ
  diesel : ℚ
  electricity : ℚ
  other_exp : ℚ
  total_cost : ℚ
  capital_cost : ℚ
  machineries : ℚ
  assets_purchase : ℚ
  construction : ℚ
  fixed_cost : ℚ
  grand_total : ℚ
  cash_receive : ℚ
  add_amount : ℚ
  less_amount : ℚ
  net_cash : ℚ
deriving DecidableEq

def daily_month_totals (dc : List CashEntry) (y m : ℕ) : MonthTotals :=
  let rs := dc.filter (fun e => inMonth y m e.date)
  { total_kg := coalesce0 (sqlSum (rs.map (fun e => e.total_kg)))
    amount_tk := coalesce0 (sqlSum (rs.map (fun e => e.amount_tk)))
    green_leaf_bill_payment := coalesce0 (sqlSum (rs.map (fun e => e.green_leaf_bill_payment)))
    staff_salary := coalesce0 (sqlSum (rs.map (fun e => e.staff_salary)))
    labour_bill := coalesce0 (sqlSum (rs.map (fun e => e.labour_bill)))
    production_cost := coalesce0 (sqlSum (rs.map (fun e => e.production_cost)))
    coal := coalesce0 (sqlSum (rs.map (fun e => e.coal)))
    diesel := coalesce0 (sqlSum (rs.map (fun e => e.diesel)))
    electricity := coalesce0 (sqlSum (rs.map (fun e => e.electricity)))
    other_exp := coalesce0 (sqlSum (rs.map (fun e => e.other_exp)))
    total_cost := coalesce0 (sqlSum (rs.map (fun e => e.total_cost)))
    capital_cost := coalesce0 (sqlSum (rs.map (fun e => e.capital_cost)))
    machineries := coalesce0 (sqlSum (rs.map (fun e => e.machineries)))
    assets_purchase := coalesce0 (sqlSum (rs.map (fun e => e.assets_purchase)))
    construction := coalesce0 (sqlSum (rs.map (fun e => e.construction)))
    fixed_cost := coalesce0 (sqlSum (rs.map (fun e => e.fixed_cost)))
    grand_total := coalesce0 (sqlSum (rs.map (fun e => e.grand_total)))
    cash_receive := coalesce0 (sqlSum (rs.map (fun e => e.cash_receive)))
    add_amount := coalesce0 (sqlSum (rs.map (fun e => e.add_amount)))
    less_amount := coalesce0 (sqlSum (rs.map (fun e => e.less_amount)))
    net_cash := coalesce0 (sqlSum (rs.map (fun e => e.net_cash))) }

/-- All-zero totals row, for stating the zero-rows property. -/
def zeroMonthTotals : MonthTotals :=
  { total_kg := 0, amount_tk := 0, green_leaf_bill_payment := 0, staff_salary := 0
    labour_bill := 0, production_cost := 0, coal := 0, diesel := 0, electricity := 0
    other_exp := 0, total_cost := 0, capital_cost := 0, machineries := 0
    assets_purchase := 0, construction := 0, fixed_cost := 0, grand_total := 0
    cash_receive := 0, add_amount := 0, less_amount := 0, net_cash := 0 }

/-- The `/summary` query (app.py 586–592):
`(COALESCE(SUM(total_cost + fixed_cost),0),
  COALESCE(SUM(cash_receive + add_amount - less_amount),0))`
over rows with `date BETWEEN start AND end`. -/
def summary_range (dc : List CashEntry) (s e : Date) : ℚ × ℚ :=
  let rs := dc.filter (fun r => inRange s e r.date)
  (coalesce0 (sqlSum (rs.map (fun r => r.total_cost + r.fixed_cost))),
   coalesce0 (sqlSum (rs.map (fun r => r.cash_receive + r.add_amount - r.less_amount))))

/-! ### Weekly timesheet grid (`timesheets_page` GET, app.py 428–463) -/

/-- `timesheets t JOIN workers w ON w.id = t.worker_id`, keeping the
entry together with the joined worker name. -/
def tsJoin (ws : List Worker) (ts : List TimesheetEntry) :
    List (TimesheetEntry × String) :=
  ts.flatMap (fun t =>
    (ws.filter (fun w => w.id == t.worker_id)).map (fun w => (t, w.name)))

/-- The joined rows of the chosen month
(`WHERE substr(t.date,1,7) = ?`). -/
def monthRows (ws : List Worker) (ts : List TimesheetEntry) (y m : ℕ) :
    List (TimesheetEntry × String) :=
  (tsJoin ws ts).filter (fun r => inMonth y m r.1.date)

/-- The GROUP BY key of the weekly query: the SQLite expression
`strftime('%Y-%m-%d', t.date, 'weekday 6')` paired with the worker
name. -/
def weekKey (r : TimesheetEntry × String) : Date × String :=
  (nextSaturday r.1.date, r.2)

/-- The aggregate of one GROUP BY group: the summed hours of the
month's joined rows whose (week bucket, worker) key is `k`. -/
def weekGroupSum (ws : List Worker) (ts : List TimesheetEntry) (y m : ℕ)
    (k : Date × String) : ℚ :=
  (((monthRows ws ts y m).filter (fun r => weekKey r == k)).map
    (fun r => r.1.hours)).sum

/-- The `week_rows` result set: one row per distinct
(week bucket, worker) pair, carrying `COALESCE(SUM(t.hours),0)` over
its group. -/
def week_rows (ws : List Worker) (ts : List TimesheetEntry) (y m : ℕ) :
    List ((Date × String) × ℚ) :=
  ((monthRows ws ts y m).map weekKey).dedup.map (fun k =>
    (k, weekGroupSum ws ts y m k))

/-- One step of the Python dict fill
`grid_data[r["worker"]][r["week_start"]] = float(r["hours"] or 0.0)`:
the matrix starts at 0.0 everywhere and each `week_rows` row overwrites
its own key (assignment to a key outside the month's columns simply
extends the dict and is never displayed). -/
def dictUpd (g : Date × String → ℚ) (kv : (Date × String) × ℚ) :
    Date × String → ℚ :=
  fun key => if key = kv.1 then kv.2 else g key

/-- The cell of the monthly grid for worker `w` at day column `c`. -/
def grid_data (ws : List Worker) (ts : List TimesheetEntry) (y m : ℕ)
    (w : String) (c : Date) : ℚ :=
  (week_rows ws ts y m).foldl dictUpd (fun _ => 0) (c, w)

/-- `grid_dates`: every day of the month, in order. -/
def grid_dates (y m : ℕ) : List Date :=
  (List.range (daysInMonth y m)).map (fun i => ⟨y, m, i + 1⟩)

/-- `grid_totals[w]`: the sum of the displayed day columns only. -/
def grid_totals (ws : List Worker) (ts : List TimesheetEntry) (y m : ℕ)
    (w : String) : ℚ :=
  ((grid_dates y m).map (fun c => grid_data ws ts y m w c)).sum

/-- The cell the specification describes (written from the spec's
words, for comparison with `grid_data`): the hours of all of worker
`w`'s entries of the month whose date falls in the Saturday-to-Friday
week starting at `c`, i.e. in `[c, c+6]`. -/
def specSatToFriCell (ws : List Worker) (ts : List TimesheetEntry) (y m : ℕ)
    (w : String) (c : Date) : ℚ :=
  (((monthRows ws ts y m).filter (fun r =>
      r.2 == w && decide (rataDie c ≤ rataDie r.1.date)
        && decide (rataDie r.1.date ≤ rataDie c + 6))).map
    (fun r => r.1.hours)).sum

/-! ### Range timesheet matrix export (`export_timesheets_matrix`,
app.py 646–690) -/

/-- The inclusive day list the export builds by stepping one day at a
time from `start` while `cur <= end`. -/
def dates_list (d0 d1 : Date) : List Date :=
  (List.range (rataDie d1 + 1 - rataDie d0)).map (fun i => addDays d0 i)

/-- The joined rows of the export query
(`WHERE t.date BETWEEN ? AND ?`). -/
def rangeRows (ws : List Worker) (ts : List TimesheetEntry) (d0 d1 : Date) :
    List (TimesheetEntry × String) :=
  (tsJoin ws ts).filter (fun r => inRange d0 d1 r.1.date)

/-- One step of `mat[r["worker"]][r["date"]] += float(r["hours"] or 0)`
(`hours or 0` is the hours value itself, since falsy hours are 0). -/
def matUpd (g : String × Date → ℚ) (r : TimesheetEntry × String) :
    String × Date → ℚ :=
  fun k => if k = (r.2, r.1.date) then g k + r.1.hours else g k

/-- The per-day cell of the export matrix for worker `w` on day `d`. -/
def mat_cell (ws : List Worker) (ts : List TimesheetEntry) (d0 d1 : Date)
    (w : String) (d : Date) : ℚ :=
  (rangeRows ws ts d0 d1).foldl matUpd (fun _ => 0) (w, d)

/-- The per-day sum the export is meant to produce: all hours of worker
`w` on exactly day `d` within the range. -/
def day_sum (ws : List Worker) (ts : List TimesheetEntry) (d0 d1 : Date)
    (w : String) (d : Date) : ℚ :=
  (((rangeRows ws ts d0 d1).filter (fun r => (r.2, r.1.date) == (w, d))).map
    (fun r => r.1.hours)).sum

/-! ### Calendar lemmas -/

theorem cumDays_le {m : ℕ} (h1 : 1 ≤ m) (h2 : m ≤ 12) :
    cumDays m ≤ cumDays (m + 1) := by
  interval_cases m <;> decide

theorem daysInMonth_pos (y : ℕ) {m : ℕ} (h1 : 1 ≤ m) (h2 : m ≤ 12) :
    1 ≤ daysInMonth y m := by
  have hle := cumDays_le h1 h2
  have hgap : 28 ≤ cumDays (m + 1) - cumDays m := by
    interval_cases m <;> decide
  unfold daysInMonth
  split_ifs <;> omega

/-- Stepping past the end of a month advances the in-year day count by
exactly the month's length. -/
theorem cum_adj_step (y : ℕ) {m : ℕ} (h1 : 1 ≤ m) (h2 : m ≤ 12) :
    cumDays m + leapAdj y m + daysInMonth y m
      = cumDays (m + 1) + leapAdj y (m + 1) := by
  have hsub := Nat.sub_add_cancel (cumDays_le h1 h2)
  unfold daysInMonth leapAdj isLeap
  split_ifs <;> omega

set_option maxHeartbeats 1600000 in
theorem daysBeforeYear_succ (y : ℕ) (hy : 1 ≤ y) :
    daysBeforeYear (y + 1)
      = daysBeforeYear y + 365 + (if isLeap y then 1 else 0) := by
  by_cases hl : isLeap y
  · rw [if_pos hl]
    unfold isLeap at hl
    unfold daysBeforeYear
    omega
  · rw [if_neg hl]
    unfold isLeap at hl
    unfold daysBeforeYear
    omega

theorem rataDie_nextDay {d : Date} (h : d.valid) :
    rataDie (nextDay d) = rataDie d + 1 := by
  obtain ⟨y, m, dd⟩ := d
  unfold Date.valid at h
  dsimp only at h
  obtain ⟨hy, hm1, hm12, hd1, hd2⟩ := h
  unfold nextDay
  dsimp only
  by_cases hlt : dd < daysInMonth y m
  · rw [if_pos hlt]
    unfold rataDie
    dsimp only
    omega
  · have hde : dd = daysInMonth y m := le_antisymm hd2 (not_lt.mp hlt)
    rw [if_neg hlt]
    by_cases hm : m < 12
    · rw [if_pos hm]
      have hstep := cum_adj_step y hm1 (le_of_lt hm)
      have hpos := daysInMonth_pos y hm1 hm12
      unfold rataDie
      dsimp only
      omega
    · have hm' : m = 12 := le_antisymm hm12 (not_lt.mp hm)
      subst hm'
      rw [if_neg hm]
      have hsy := daysBeforeYear_succ y hy
      have hde' : dd = 31 := by
        rw [hde]
        have h31 : cumDays (12 + 1) - cumDays 12 = 31 := by decide
        unfold daysInMonth
        split_ifs <;> omega
      unfold rataDie
      dsimp only
      rw [show cumDays 1 = 0 from rfl, show cumDays 12 = 334 from rfl]
      simp only [leapAdj, isLeap]
      simp only [isLeap] at hsy
      split_ifs at hsy ⊢ <;> omega

theorem valid_nextDay {d : Date} (h : d.valid) : (nextDay d).valid := by
  obtain ⟨y, m, dd⟩ := d
  unfold Date.valid at h
  dsimp only at h
  obtain ⟨hy, hm1, hm12, hd1, hd2⟩ := h
  unfold nextDay
  dsimp only
  by_cases hlt : dd < daysInMonth y m
  · rw [if_pos hlt]
    unfold Date.valid
    dsimp only
    exact ⟨hy, hm1, hm12, by omega, by omega⟩
  · rw [if_neg hlt]
    by_cases hm : m < 12
    · rw [if_pos hm]
      unfold Date.valid
      dsimp only
      exact ⟨hy, by omega, by omega, le_refl 1,
        daysInMonth_pos y (m := m + 1) (by omega) (by omega)⟩
    · rw [if_neg hm]
      unfold Date.valid
      dsimp only
      exact ⟨by omega, by omega, by omega, le_refl 1,
        daysInMonth_pos (y + 1) (m := 1) (by omega) (by omega)⟩

theorem rataDie_addDays (k : ℕ) :
    ∀ d : Date, d.valid →
      rataDie (addDays d k) = rataDie d + k ∧ (addDays d k).valid := by
  induction k with
  | zero => intro d h; exact ⟨rfl, h⟩
  | succ n ih =>
      intro d h
      show rataDie (addDays (nextDay d) n) = _ ∧ (addDays (nextDay d) n).valid
      obtain ⟨h1, h2⟩ := ih (nextDay d) (valid_nextDay h)
      refine ⟨?_, h2⟩
      rw [h1, rataDie_nextDay h]
      omega

theorem rataDie_nextSaturday {d : Date} (h : d.valid) :
    rataDie (nextSaturday d) = rataDie d + (5 + 7 - rataDie d % 7) % 7 :=
  (rataDie_addDays _ d h).1

theorem nextSaturday_valid {d : Date} (h : d.valid) : (nextSaturday d).valid :=
  (rataDie_addDays _ d h).2

/-- The week bucket of a valid date is a Saturday, and it is the unique
one in the window `[d, d+6]`: the Saturday on or after `d`. -/
theorem nextSaturday_window {d : Date} (h : d.valid) :
    isSaturday (nextSaturday d)
      ∧ rataDie d ≤ rataDie (nextSaturday d)
      ∧ rataDie (nextSaturday d) < rataDie d + 7 := by
  unfold isSaturday
  rw [rataDie_nextSaturday h]
  omega

/-! ### Dictionary-fill lemmas -/

/-- Filling an all-zero dict from rows `(k, f k)` and reading key `k`
gives `f k` when some row carries `k`, and the initial value otherwise. -/
theorem foldl_dictUpd (f : Date × String → ℚ) :
    ∀ (keys : List (Date × String)) (g0 : Date × String → ℚ)
      (k : Date × String),
      ((keys.map (fun x => (x, f x))).foldl dictUpd g0) k
        = if k ∈ keys then f k else g0 k := by
  intro keys
  induction keys with
  | nil =>
      intro g0 k
      simp
  | cons a tl ih =>
      intro g0 k
      simp only [List.map_cons, List.foldl_cons]
      rw [ih (dictUpd g0 (a, f a)) k]
      by_cases hk : k ∈ tl
      · simp [hk]
      · by_cases ha : k = a
        · subst ha
          simp [hk, dictUpd]
        · simp [hk, ha, dictUpd]

/-- The `+=` fill of the export matrix accumulates exactly the sum of
the hours of the rows keyed at `k`. -/
theorem foldl_matUpd :
    ∀ (rows : List (TimesheetEntry × String)) (g0 : String × Date → ℚ)
      (k : String × Date),
      (rows.foldl matUpd g0) k
        = g0 k + ((rows.filter (fun r => (r.2, r.1.date) == k)).map
            (fun r => r.1.hours)).sum := by
  intro rows
  induction rows with
  | nil =>
      intro g0 k
      simp
  | cons r tl ih =>
      intro g0 k
      simp only [List.foldl_cons]
      rw [ih (matUpd g0 r) k]
      by_cases h : (r.2, r.1.date) = k
      · have hb : ((r.2, r.1.date) == k) = true := by simp [h]
        simp [List.filter_cons, hb, matUpd, h]
        ring
      · have hb : ((r.2, r.1.date) == k) = false := by simp [h]
        simp only [List.filter_cons, hb, Bool.false_eq_true, if_false, matUpd]
        rw [if_neg (fun hkk => h hkk.symm)]

/-- A key carried by no `week_rows` group has an empty group sum. -/
theorem weekGroupSum_zero {ws : List Worker} {ts : List TimesheetEntry}
    {y m : ℕ} {k : Date × String}
    (hnot : k ∉ ((monthRows ws ts y m).map weekKey).dedup) :
    weekGroupSum ws ts y m k = 0 := by
  unfold weekGroupSum
  have hfil : (monthRows ws ts y m).filter (fun r => weekKey r == k) = [] := by
    apply List.filter_eq_nil_iff.mpr
    intro r hr hbeq
    exact hnot (List.mem_dedup.mpr (List.mem_map.mpr ⟨r, hr, beq_iff_eq.mp hbeq⟩))
  rw [hfil]
  simp

/-- The monthly grid cell of worker `w` at day column `c` equals the
summed hours of the month's entries whose week bucket is exactly `c`
(and 0 when no entry buckets to `c`). -/
theorem grid_data_eq (ws : List Worker) (ts : List TimesheetEntry) (y m : ℕ)
    (w : String) (c : Date) :
    grid_data ws ts y m w c = weekGroupSum ws ts y m (c, w) := by
  unfold grid_data week_rows
  rw [foldl_dictUpd (weekGroupSum ws ts y m)]
  by_cases hmem : (c, w) ∈ ((monthRows ws ts y m).map weekKey).dedup
  · rw [if_pos hmem]
  · rw [if_neg hmem]
    exact (weekGroupSum_zero hmem).symm

/-- The export matrix cell is the per-worker per-day sum. -/
theorem mat_cell_eq (ws : List Worker) (ts : List TimesheetEntry)
    (d0 d1 : Date) (w : String) (d : Date) :
    mat_cell ws ts d0 d1 w d = day_sum ws ts d0 d1 w d := by
  unfold mat_cell day_sum
  rw [foldl_matUpd (rangeRows ws ts d0 d1) (fun _ => 0) (w, d)]
  simp

/-! ### Shared concrete fixtures for witnesses -/

/-- An active worker row, as `people` creates them. -/
def w_amina : Worker :=
  ⟨1, "Amina", "2025-01-01", "", 1, SqlVal.text "0", SqlVal.num 0, none⟩

/-- A `DailyForm` with every field absent. -/
def blankDailyForm : DailyForm :=
  ⟨none, none, none, none, none, none, none, none, none, none,
   none, none, none, none, none, none, none, none, none, none⟩

/-! ### Claim theorems -/

/-- C2: every `CashEntry` persisted by the daily cash capture satisfies
`total_cost` = the sum of the 8 operating-expense fields,
`fixed_cost` = the sum of the 4 capital fields,
`grand_total = total_cost + fixed_cost` and
`net_cash = cash_receive + add_amount - less_amount`, exactly. -/
theorem C2_cash_derived_fields (form : DailyForm) (today : Date) (uid : ℕ) :
    (daily_post form today uid).total_cost
        = (daily_post form today uid).green_leaf_bill_payment
          + (daily_post form today uid).staff_salary
          + (daily_post form today uid).labour_bill
          + (daily_post form today uid).production_cost
          + (daily_post form today uid).coal
          + (daily_post form today uid).diesel
          + (daily_post form today uid).electricity
          + (daily_post form today uid).other_exp
      ∧ (daily_post form today uid).fixed_cost
          = (daily_post form today uid).capital_cost
            + (daily_post form today uid).machineries
            + (daily_post form today uid).assets_purchase
            + (daily_post form today uid).construction
      ∧ (daily_post form today uid).grand_total
          = (daily_post form today uid).total_cost
            + (daily_post form today uid).fixed_cost
      ∧ (daily_post form today uid).net_cash
          = (daily_post form today uid).cash_receive
            + (daily_post form today uid).add_amount
            - (daily_post form today uid).less_amount :=
  ⟨rfl, rfl, rfl, rfl⟩

/-- C5 (amended): input read through the `_f` helper never raises and
coerces unparsable strings (and missing fields) to exactly 0.0; but the
hourly-rate update operation — cited by the claim — bypasses `_f` and
stores the submitted string verbatim, so there the stored value is not
0.0 (see the counterexample). -/
theorem C5_coercion_amended (s : String) (h : pyFloat s = none) :
    coerce_f (some s) = 0 ∧ coerce_f none = 0 := by
  constructor
  · simp only [coerce_f]
    by_cases he : s = ""
    · rw [if_pos he]
    · rw [if_neg he, h]
      rfl
  · rfl

theorem C5_coercion_amended_witness :
    coerce_f (some "abc") = 0 ∧ coerce_f none = 0 :=
  C5_coercion_amended "abc" (by with_unfolding_all decide)

/-- C5 counterexample: `update_hourly_rate` receives the unparsable
string "abc" and stores it verbatim as the worker's `hourly_rate` —
the stored value is the text "abc", not the number 0.0. -/
theorem C5_coercion_counterexample :
    pyFloat "abc" = none
      ∧ (update_hourly_rate "admin" (some "abc") 1 [w_amina]).map
          (fun w => w.hourly_rate) = [SqlVal.text "abc"]
      ∧ SqlVal.text "abc" ≠ SqlVal.num 0 := by
  refine ⟨?_, ?_, ?_⟩ <;> with_unfolding_all decide

/-- C7: the daily cash create path always writes `status='submitted'`
and the timesheet create path always writes `status='pending'`; neither
create path writes `'approved'`. -/
theorem C7_created_status (form : DailyForm) (today the_day : Date)
    (uid uid2 : ℕ) (hoursField noteField : ℕ → Option String)
    (workersTbl : List Worker) :
    ((daily_post form today uid).status = "submitted"
        ∧ (daily_post form today uid).status ≠ "approved")
      ∧ ∀ r ∈ timesheets_post the_day uid2 hoursField noteField workersTbl,
          r.status = "pending" ∧ r.status ≠ "approved" := by
  refine ⟨⟨rfl, (by decide : ("submitted" : String) ≠ "approved")⟩, ?_⟩
  intro r hr
  unfold timesheets_post at hr
  rcases List.mem_filterMap.mp hr with ⟨w, hw, hmk⟩
  by_cases hpos : 0 < coerce_f (hoursField w.id)
  · rw [if_pos hpos] at hmk
    cases hmk
    exact ⟨rfl, (by decide : ("pending" : String) ≠ "approved")⟩
  · rw [if_neg hpos] at hmk
    cases hmk

/-- The row the timesheet capture inserts for `w_amina` with submitted
hours "5". -/
def c7_row : TimesheetEntry :=
  ⟨0, ⟨2025, 6, 1⟩, 1, 5, "", "pending", 7, none, none⟩

set_option maxRecDepth 4000 in
theorem C7_created_status_witness :
    c7_row.status = "pending" ∧ c7_row.status ≠ "approved" :=
  (C7_created_status blankDailyForm ⟨2025, 6, 1⟩ ⟨2025, 6, 1⟩ 7 7
      (fun _ => some "5") (fun _ => none) [w_amina]).2
    c7_row (by with_unfolding_all decide)

/-- C8: every worker created by the roster capture starts with
`approved_hourly_rate = 0` and `active = 1`, whatever `hourly_rate`
string was submitted. -/
theorem C8_worker_defaults (name : String)
    (join_date note hourly_rate : Option String) (today : String) :
    (add_worker name join_date note hourly_rate today).approved_hourly_rate
        = SqlVal.num 0
      ∧ (add_worker name join_date note hourly_rate today).active = 1 :=
  ⟨rfl, rfl⟩

/-- C9: a month (and an inclusive date range) with zero `CashEntry`
rows yields all-zero monthly column totals and a (0, 0)
expenses/revenue summary — the SQL NULL of `SUM` over no rows is
coalesced to 0, never surfaced and never an error. -/
theorem C9_zero_rows_totals (dc : List CashEntry) (y m : ℕ) (s e : Date)
    (h1 : dc.filter (fun r => inMonth y m r.date) = [])
    (h2 : dc.filter (fun r => inRange s e r.date) = []) :
    daily_month_totals dc y m = zeroMonthTotals
      ∧ summary_range dc s e = (0, 0) := by
  constructor
  · unfold daily_month_totals
    rw [h1]
    rfl
  · unfold summary_range
    rw [h2]
    rfl

theorem C9_zero_rows_totals_witness :
    daily_month_totals [] 2025 6 = zeroMonthTotals
      ∧ summary_range [] ⟨2025, 6, 1⟩ ⟨2025, 6, 30⟩ = (0, 0) :=
  C9_zero_rows_totals [] 2025 6 ⟨2025, 6, 1⟩ ⟨2025, 6, 30⟩ rfl rfl

/-- C4: a manager-role actor is always denied user deletion with no
change to the store; an MD-role actor leaves the store unchanged (with
an advisory flash, not an error) when the found target's role is not
`manager`, and deletes the target's row when it is. -/
theorem C4_delete_user_rules (uid : ℕ) (users : List UserRow) (t : UserRow)
    (hfind : users.find? (fun u => u.id == uid) = some t) :
    delete_user "manager" uid users = (users, "Not allowed.")
      ∧ (t.role ≠ "manager" →
          delete_user "md" uid users = (users, "MD can only delete managers."))
      ∧ (t.role = "manager" →
          delete_user "md" uid users
            = (users.filter (fun u => u.id != uid), "Deleted.")) := by
  refine ⟨rfl, ?_, ?_⟩
  · intro hrole
    unfold delete_user
    rw [hfind]
    simp [rolesOk, hrole]
  · intro hrole
    unfold delete_user
    rw [hfind]
    simp [rolesOk, hrole]

def c4_users : List UserRow :=
  [⟨1, "boss", "pw", "admin"⟩, ⟨2, "mgr", "pw", "manager"⟩]

theorem C4_delete_user_rules_witness :
    delete_user "manager" 2 c4_users = (c4_users, "Not allowed.")
      ∧ delete_user "md" 2 c4_users
          = (c4_users.filter (fun u => u.id != 2), "Deleted.") := by
  have h := C4_delete_user_rules 2 c4_users ⟨2, "mgr", "pw", "manager"⟩
    (by with_unfolding_all decide)
  exact ⟨h.1, h.2.2 rfl⟩

/-! ### C3: approve-then-reset round trip -/

theorem map_roundtrip_cash (approver : ℕ) (now : String) (rid : ℕ) :
    ∀ l : List CashEntry,
      (∀ e ∈ l, e.id = rid →
        e.status = "submitted" ∧ e.approved_by = none ∧ e.approved_at = none) →
      (l.map (fun e =>
          if e.id = rid then
            { e with status := "approved", approved_by := some approver,
                     approved_at := some now }
          else e)).map
        (fun e =>
          if e.id = rid then
            { e with status := "submitted", approved_by := none,
                     approved_at := none }
          else e) = l := by
  intro l
  induction l with
  | nil => intro _; rfl
  | cons x xs ih =>
      intro h
      simp only [List.map_cons]
      rw [ih (fun e he hid => h e (List.mem_cons_of_mem x he) hid)]
      by_cases hid : x.id = rid
      · obtain ⟨h1, h2, h3⟩ := h x (List.mem_cons_self x xs) hid
        cases x
        simp_all
      · cases x
        simp_all

theorem map_roundtrip_ts (approver : ℕ) (now : String) (tid : ℕ) :
    ∀ l : List TimesheetEntry,
      (∀ e ∈ l, e.id = tid →
        e.status = "pending" ∧ e.approved_by = none ∧ e.approved_at = none) →
      (l.map (fun e =>
          if e.id = tid then
            { e with status := "approved", approved_by := some approver,
                     approved_at := some now }
          else e)).map
        (fun e =>
          if e.id = tid then
            { e with status := "pending", approved_by := none,
                     approved_at := none }
          else e) = l := by
  intro l
  induction l with
  | nil => intro _; rfl
  | cons x xs ih =>
      intro h
      simp only [List.map_cons]
      rw [ih (fun e he hid => h e (List.mem_cons_of_mem x he) hid)]
      by_cases hid : x.id = tid
      · obtain ⟨h1, h2, h3⟩ := h x (List.mem_cons_self x xs) hid
        cases x
        simp_all
      · cases x
        simp_all

/-- C3: for an admin/md actor, approving a `CashEntry` and then
resetting it restores the table exactly when the touched rows were in
their pre-approval state (`submitted`/`pending` with null approver and
timestamp); the same holds for a `TimesheetEntry`; all other fields are
untouched by construction. -/
theorem C3_approve_reset_roundtrip (role : String) (approver : ℕ) (now : String)
    (rid tid : ℕ) (dcs : List CashEntry) (tss : List TimesheetEntry)
    (hrole : role = "admin" ∨ role = "md")
    (hdc : ∀ e ∈ dcs, e.id = rid →
      e.status = "submitted" ∧ e.approved_by = none ∧ e.approved_at = none)
    (hts : ∀ e ∈ tss, e.id = tid →
      e.status = "pending" ∧ e.approved_by = none ∧ e.approved_at = none) :
    unapprove_daily role rid (approve_daily role approver now rid dcs) = dcs
      ∧ reset_timesheet role tid (approve_timesheet role approver now tid tss)
          = tss := by
  have hg1 : rolesOk ["admin", "md"] role = true := by
    rcases hrole with h | h <;> subst h <;> rfl
  have hg2 : rolesOk ["md", "admin"] role = true := by
    rcases hrole with h | h <;> subst h <;> rfl
  constructor
  · unfold approve_daily unapprove_daily
    rw [if_pos hg1, if_pos hg1]
    exact map_roundtrip_cash approver now rid dcs hdc
  · unfold approve_timesheet reset_timesheet
    rw [if_pos hg2, if_pos hg2]
    exact map_roundtrip_ts approver now tid tss hts

def c3_cash : CashEntry :=
  ⟨9, ⟨2025, 6, 1⟩, 0, 0, 0, 0, 0, 0, 0, 0, 0, 0, 0, 0, 0, 0, 0, 0, 0,
   0, 0, 0, 0, "", none, "submitted", 1, none, none⟩

def c3_ts : TimesheetEntry :=
  ⟨4, ⟨2025, 6, 2⟩, 1, 8, "", "pending", 1, none, none⟩

theorem C3_approve_reset_roundtrip_witness :
    unapprove_daily "admin" 9
        (approve_daily "admin" 5 "2025-06-03T10:00:00" 9 [c3_cash]) = [c3_cash]
      ∧ reset_timesheet "admin" 4
          (approve_timesheet "admin" 5 "2025-06-03T10:00:00" 4 [c3_ts])
          = [c3_ts] :=
  C3_approve_reset_roundtrip "admin" 5 "2025-06-03T10:00:00" 9 4 [c3_cash] [c3_ts]
    (Or.inl rfl)
    (by intro e he hid
        rw [List.mem_singleton.mp he]
        exact ⟨rfl, rfl, rfl⟩)
    (by intro e he hid
        rw [List.mem_singleton.mp he]
        exact ⟨rfl, rfl, rfl⟩)

/-! ### C6: range timesheet matrix -/

/-- Two same-day entries for Amina: hours 3 and hours 5 on 2025-06-07. -/
def c6_ts : List TimesheetEntry :=
  [⟨1, ⟨2025, 6, 7⟩, 1, 3, "", "pending", 1, none, none⟩,
   ⟨2, ⟨2025, 6, 7⟩, 1, 5, "", "pending", 1, none, none⟩]

set_option maxRecDepth 40000 in
/-- C6: in the range timesheet export, the cell of worker `w` on any
day of the inclusive range is the sum of the hours of all of `w`'s
entries on exactly that date (same-day entries accumulate via `+=`);
in particular Amina's two 2025-06-07 entries of 3 and 5 hours give a
cell of 8.0. -/
theorem C6_matrix_day_sums (ws : List Worker) (ts : List TimesheetEntry)
    (d0 d1 : Date) (w : String) (d : Date) (hd : d ∈ dates_list d0 d1) :
    mat_cell ws ts d0 d1 w d = day_sum ws ts d0 d1 w d
      ∧ mat_cell [w_amina] c6_ts ⟨2025, 6, 1⟩ ⟨2025, 6, 30⟩ "Amina"
          ⟨2025, 6, 7⟩ = 8 :=
  ⟨mat_cell_eq ws ts d0 d1 w d, by with_unfolding_all decide⟩

set_option maxRecDepth 40000 in
theorem C6_matrix_day_sums_witness :
    mat_cell [w_amina] c6_ts ⟨2025, 6, 1⟩ ⟨2025, 6, 30⟩ "Amina" ⟨2025, 6, 7⟩
        = day_sum [w_amina] c6_ts ⟨2025, 6, 1⟩ ⟨2025, 6, 30⟩ "Amina" ⟨2025, 6, 7⟩
      ∧ mat_cell [w_amina] c6_ts ⟨2025, 6, 1⟩ ⟨2025, 6, 30⟩ "Amina"
          ⟨2025, 6, 7⟩ = 8 :=
  C6_matrix_day_sums [w_amina] c6_ts ⟨2025, 6, 1⟩ ⟨2025, 6, 30⟩ "Amina"
    ⟨2025, 6, 7⟩ (by with_unfolding_all decide)

/-! ### C1: weekly grid bucketing -/

theorem mem_tsJoin_fst {ws : List Worker} {ts : List TimesheetEntry}
    {r : TimesheetEntry × String} (h : r ∈ tsJoin ws ts) : r.1 ∈ ts := by
  unfold tsJoin at h
  rcases List.mem_flatMap.mp h with ⟨t, ht, hr⟩
  rcases List.mem_map.mp hr with ⟨w, hw, rfl⟩
  exact ht

/-- C1 (amended): the monthly grid buckets each entry by the Saturday
on-or-after its date, so a week spans Sunday through Saturday and is
keyed by its last day, not by a Saturday that starts it.  (i) Every
cell equals the bucketed sum of its column's key; (ii) each entry's
bucket is the Saturday at most 6 days after it; (iii) every
non-Saturday column is 0.0. -/
theorem C1_week_grid_amended (ws : List Worker) (ts : List TimesheetEntry)
    (y m : ℕ) (hv : ∀ t ∈ ts, t.date.valid) :
    (∀ w c, grid_data ws ts y m w c = weekGroupSum ws ts y m (c, w))
      ∧ (∀ r ∈ monthRows ws ts y m,
          isSaturday (nextSaturday r.1.date)
            ∧ rataDie r.1.date ≤ rataDie (nextSaturday r.1.date)
            ∧ rataDie (nextSaturday r.1.date) < rataDie r.1.date + 7)
      ∧ (∀ w c, ¬ isSaturday c → grid_data ws ts y m w c = 0) := by
  have hmval : ∀ r ∈ monthRows ws ts y m, r.1.date.valid := by
    intro r hr
    exact hv r.1 (mem_tsJoin_fst (List.mem_of_mem_filter hr))
  refine ⟨fun w c => grid_data_eq ws ts y m w c,
    fun r hr => nextSaturday_window (hmval r hr), ?_⟩
  intro w c hns
  rw [grid_data_eq]
  unfold weekGroupSum
  have hfil : (monthRows ws ts y m).filter (fun r => weekKey r == (c, w)) = [] := by
    apply List.filter_eq_nil_iff.mpr
    intro r hr hbeq
    have hkey : nextSaturday r.1.date = c :=
      congrArg Prod.fst (beq_iff_eq.mp hbeq)
    have hsat := (nextSaturday_window (hmval r hr)).1
    apply hns
    rw [← hkey]
    exact hsat
  rw [hfil]
  rfl

/-- A single entry on Sunday 2025-06-08 (5 hours, Amina). -/
def c1_ts : List TimesheetEntry :=
  [⟨1, ⟨2025, 6, 8⟩, 1, 5, "", "pending", 1, none, none⟩]

set_option maxRecDepth 40000 in
/-- C1 counterexample: the Saturday-to-Friday week containing Sunday
2025-06-08 starts at Saturday 2025-06-07 and carries 5 hours according
to the claim, but the grid's 2025-06-07 column is 0.0 (the code
buckets 2025-06-08 forward to 2025-06-14). -/
theorem C1_week_grid_counterexample :
    specSatToFriCell [w_amina] c1_ts 2025 6 "Amina" ⟨2025, 6, 7⟩ = 5
      ∧ grid_data [w_amina] c1_ts 2025 6 "Amina" ⟨2025, 6, 7⟩ = 0
      ∧ (5 : ℚ) ≠ 0 := by
  refine ⟨?_, ?_, ?_⟩ <;> with_unfolding_all decide

set_option maxRecDepth 40000 in
theorem C1_week_grid_amended_witness :
    grid_data [w_amina] c1_ts 2025 6 "Amina" ⟨2025, 6, 14⟩
      = weekGroupSum [w_amina] c1_ts 2025 6 (⟨2025, 6, 14⟩, "Amina") :=
  (C1_week_grid_amended [w_amina] c1_ts 2025 6
      (by with_unfolding_all decide)).1 "Amina" ⟨2025, 6, 14⟩

/-! ### C10: entries bucketed past the end of the month -/

theorem weekGroupSum_cons (ws : List Worker) (t : TimesheetEntry)
    (ts : List TimesheetEntry) (y m : ℕ) (c : Date) (w : String)
    (h : nextSaturday t.date ≠ c) :
    weekGroupSum ws (t :: ts) y m (c, w) = weekGroupSum ws ts y m (c, w) := by
  unfold weekGroupSum monthRows tsJoin
  rw [List.flatMap_cons, List.filter_append, List.filter_append,
    List.map_append, List.sum_append]
  have hnil : ((((ws.filter (fun w' => w'.id == t.worker_id)).map
      (fun w' => (t, w'.name))).filter (fun r => inMonth y m r.1.date)).filter
        (fun r => weekKey r == (c, w))) = [] := by
    apply List.filter_eq_nil_iff.mpr
    intro r hr hbeq
    rcases List.mem_map.mp (List.mem_of_mem_filter hr) with ⟨w', hw', rfl⟩
    exact h (congrArg Prod.fst (beq_iff_eq.mp hbeq))
  rw [hnil]
  simp

theorem grid_dates_le {y m : ℕ} {c : Date} (hc : c ∈ grid_dates y m) :
    rataDie c ≤ rataDie ⟨y, m, daysInMonth y m⟩ := by
  unfold grid_dates at hc
  rcases List.mem_map.mp hc with ⟨i, hi, rfl⟩
  have hilt := List.mem_range.mp hi
  unfold rataDie
  dsimp only
  omega

/-- C10: a month entry whose week bucket (the Saturday on-or-after its
date) falls past the month's last day contributes to no displayed day
column and is excluded from the worker's displayed monthly total; the
grid is a total function, so it still renders. -/
theorem C10_out_of_month_bucket (ws : List Worker) (ts : List TimesheetEntry)
    (t : TimesheetEntry) (y m : ℕ)
    (hv : t.date.valid)
    (hm : inMonth y m t.date = true)
    (hout : rataDie ⟨y, m, daysInMonth y m⟩ < rataDie (nextSaturday t.date)) :
    (∀ c ∈ grid_dates y m, ∀ w,
        grid_data ws (t :: ts) y m w c = grid_data ws ts y m w c)
      ∧ ∀ w, grid_totals ws (t :: ts) y m w = grid_totals ws ts y m w := by
  have hcell : ∀ c ∈ grid_dates y m, ∀ w,
      grid_data ws (t :: ts) y m w c = grid_data ws ts y m w c := by
    intro c hc w
    rw [grid_data_eq, grid_data_eq]
    apply weekGroupSum_cons
    intro heq
    have hle := grid_dates_le hc
    rw [heq] at hout
    omega
  refine ⟨hcell, ?_⟩
  intro w
  unfold grid_totals
  congr 1
  exact List.map_congr_left (fun c hc => hcell c hc w)

/-- An entry on Sunday 2025-06-29, whose bucket 2025-07-05 lies past
2025-06-30. -/
def c10_t : TimesheetEntry :=
  ⟨1, ⟨2025, 6, 29⟩, 1, 5, "", "pending", 1, none, none⟩

set_option maxRecDepth 40000 in
theorem C10_out_of_month_bucket_witness :
    grid_totals [w_amina] (c10_t :: []) 2025 6 "Amina"
      = grid_totals [w_amina] [] 2025 6 "Amina" :=
  (C10_out_of_month_bucket [w_amina] [] c10_t 2025 6
      (by with_unfolding_all decide) (by with_unfolding_all decide)
      (by with_unfolding_all decide)).2 "Amina"

end Talma
